import Mathlib

/-!
Shallow embedding of `train.py`: the training supervisor's outer restart
loop, run initialization, the checkpoint lifecycle, the step loop, and the
evaluation scheduler.  The external collaborators that are not part of the
repository source (the Model Handle's `save`/`load` and the Dataset
Provider) are modelled from the spec where noted in their doc comments;
everything else is translated directly from `src/train.py`.
-/

/-- Run configuration: the orchestration-relevant fields of the JSON config
and the CLI `--new` flag (train.py lines 34, 58-61, 90). -/
structure Config where
  new : Bool
  ckpt_every : Nat
  keep_every : Nat
  val_every : Nat
  val_batches : Nat
  val_set_names : List String
  deriving DecidableEq

/-- A stored checkpoint: the recorded step, the aux dataset cursor (`none`
when the save carried no aux, as the init save at train.py line 69 does),
and whether the write marked it transient (deletable once superseded).
Modelled from the spec: the Checkpoint entity of §3; the durable store
itself lives behind the Model Handle, which is not under src/. -/
structure Ckpt where
  step : Nat
  cursor : Option Nat
  transient : Bool
  deriving DecidableEq

/-- Observable actions of one attempt, in program order. -/
inductive Event where
  | warnNoCursor : Event
  | trainCompile : Event
  | evalCompile (name : String) : Event
  | trainStep (step : Nat) : Event
  | ckptSave (step : Nat) (cursor : Nat) (delete_old : Bool) : Event
  | valLoss (step : Nat) (name : String) : Event
  | task (step : Nat) (name : String) : Event
  deriving DecidableEq

/-- Modelled from the spec: the Model Handle's `save(0, …, init=True,
overwrite=clean_start)` (mesh_transformer.build_model, not under src/).
Per §4.2 the init save succeeds when no checkpoint exists, or when
overwrite is authorized — in which case all existing checkpoint data is
deleted and a fresh step-0 checkpoint is written; otherwise it raises
(`none`).  The call at train.py line 69 passes no aux, so the step-0
checkpoint carries no dataset cursor. -/
def saveInit (store : List Ckpt) (overwrite : Bool) : Option (List Ckpt) :=
  if store.isEmpty then some [⟨0, none, false⟩]
  else if overwrite then some [⟨0, none, false⟩]
  else none

/-- Modelled from the spec: the Model Handle's `load` (not under src/)
returns the most recent durable checkpoint's `(step, aux cursor)` per
§4.2; it raises (`none`) when no checkpoint exists. -/
def loadLatest (store : List Ckpt) : Option (Nat × Option Nat) :=
  store.getLast?.map fun c => (c.step, c.cursor)

/-- Modelled from the spec: the Model Handle's non-init `save` (not under
src/), per §3 and §4.4: the new checkpoint is durably written carrying the
cursor aux and is marked transient iff `delete_old`; checkpoints that were
marked transient are deleted only now, once this new write has superseded
them (never before the new write succeeds); non-transient (milestone)
checkpoints are retained indefinitely. -/
def saveStep (store : List Ckpt) (step cursor : Nat) (delete_old : Bool) : List Ckpt :=
  store.filter (fun c => !c.transient) ++ [⟨step, some cursor, delete_old⟩]

/-- Result of the attempt-initialization phase (train.py lines 68-78). -/
structure InitOut where
  store : List Ckpt
  step : Nat
  restore : Option Nat
  warned : Bool
  deriving DecidableEq

/-- train.py lines 68-78: try the init save first; on failure fall back to
loading the latest checkpoint, warning (line 78) when its aux lacks the
`train_loader` cursor.  `none` models the attempt dying inside init (a
load with no checkpoint present). -/
def initStore (store : List Ckpt) (clean_start : Bool) : Option InitOut :=
  match saveInit store clean_start with
  | some store' => some ⟨store', 0, none, false⟩
  | none =>
    match loadLatest store with
    | none => none
    | some (step, aux) => some ⟨store, step, aux, aux.isNone⟩

/-- In-attempt mutable state: the step counter, the training dataset
cursor, and the durable checkpoint store.  Modelled from the spec: the
Dataset Provider (tfrecord_loader, not under src/) yields one batch per
`get_samples` call and exposes a serializable cursor resuming iteration
exactly where it left off; the cursor is the count of training batches
drawn so far. -/
structure LoopState where
  step : Nat
  cursor : Nat
  store : List Ckpt
  deriving DecidableEq

/-- train.py lines 121-147: one evaluation round at `step` — the mean
validation loss of every configured validation set, in configured order,
followed by the four benchmark tasks in their fixed order. -/
def evalRound (cfg : Config) (step : Nat) : List Event :=
  cfg.val_set_names.map (Event.valLoss step) ++
    [Event.task step "lambada", Event.task step "winogrande",
     Event.task step "piqa", Event.task step "hellaswag"]

/-- train.py lines 111-149: one iteration of the step loop.  Draw one
training batch and update (line 112); if `step % ckpt_every == 0 and step`
save a checkpoint whose aux is the cursor snapshot taken at this moment,
with `delete_old = step % keep_every != 0` (lines 115-119); if
`step % val_every == 0` run an evaluation round (lines 121-147); finally
increment `step` (line 149). -/
def stepIter (cfg : Config) (st : LoopState) : LoopState × List Event :=
  ⟨⟨st.step + 1, st.cursor + 1,
      if st.step % cfg.ckpt_every = 0 ∧ st.step ≠ 0 then
        saveStep st.store st.step (st.cursor + 1)
          (decide (st.step % cfg.keep_every ≠ 0))
      else st.store⟩,
    Event.trainStep st.step ::
      ((if st.step % cfg.ckpt_every = 0 ∧ st.step ≠ 0 then
          [Event.ckptSave st.step (st.cursor + 1)
            (decide (st.step % cfg.keep_every ≠ 0))]
        else []) ++
        (if st.step % cfg.val_every = 0 then evalRound cfg st.step else []))⟩

/-- The step loop of train.py lines 111-149, observed for `n` iterations. -/
def runLoop (cfg : Config) : Nat → LoopState → LoopState × List Event
  | 0, st => (st, [])
  | n + 1, st =>
    ((runLoop cfg n (stepIter cfg st).1).1,
      (stepIter cfg st).2 ++ (runLoop cfg n (stepIter cfg st).1).2)

/-- Everything one attempt of `main` (train.py lines 30-149) produces,
observed after `iters` loop iterations. -/
structure AttemptOut where
  overwriteUsed : Bool
  storeAfterInit : List Ckpt
  startStep : Nat
  startCursor : Nat
  warned : Bool
  store : List Ckpt
  endStep : Nat
  endCursor : Nat
  events : List Event
  deriving DecidableEq

/-- train.py `main(first)`: compute `clean_start = args.new and first`
(line 42), initialize (lines 68-78), build the training dataset resuming
from the restored cursor if any (lines 80-84), make the pre-loop compile
calls — one training update (line 101) and one eval batch per configured
validation set (lines 104-107) — then run `iters` iterations of the step
loop (lines 111-149). -/
def runAttempt (cfg : Config) (store : List Ckpt) (first : Bool) (iters : Nat) :
    Option AttemptOut :=
  match initStore store (cfg.new && first) with
  | none => none
  | some init =>
    let cursor0 := init.restore.getD 0
    let st0 : LoopState := ⟨init.step, cursor0 + 1, init.store⟩
    some ⟨cfg.new && first, init.store, init.step, cursor0, init.warned,
      (runLoop cfg iters st0).1.store, (runLoop cfg iters st0).1.step,
      (runLoop cfg iters st0).1.cursor,
      (if init.warned then [Event.warnNoCursor] else []) ++
        (Event.trainCompile :: cfg.val_set_names.map Event.evalCompile) ++
        (runLoop cfg iters st0).2⟩

/-- One attempt as seen by the outer supervisor loop. -/
structure SysTrace where
  firstUsed : Bool
  storeBefore : List Ckpt
  out : AttemptOut
  deriving DecidableEq

/-- train.py lines 152-161, store-threading view: attempts run in
sequence; `plans` gives each attempt's iteration count before it dies with
a non-interrupt exception; `first` is passed to `main` and is set to False
after every attempt, so only the very first attempt sees True. -/
def runSystemAux (cfg : Config) : List Nat → List Ckpt → Bool → List Ckpt × List SysTrace
  | [], store, _ => (store, [])
  | iters :: rest, store, first =>
    match runAttempt cfg store first iters with
    | none => (store, [])
    | some out =>
      ((runSystemAux cfg rest out.store false).1,
        ⟨first, store, out⟩ :: (runSystemAux cfg rest out.store false).2)

/-- train.py lines 152-153: the supervisor starts with `first = True`. -/
def runSystem (cfg : Config) (plans : List Nat) (store : List Ckpt) :
    List Ckpt × List SysTrace :=
  runSystemAux cfg plans store true

/-- What one attempt's death looks like to the supervisor. -/
inductive Exc where
  | keyboardInterrupt : Exc
  | other (msg : String) : Exc
  deriving DecidableEq

/-- What the supervisor did: how many attempts it started, what it wrote
to its own log, and whether it stopped because of an interrupt. -/
structure SupRes where
  attempts : Nat
  log : List String
  interrupted : Bool
  deriving DecidableEq

/-- train.py lines 152-161, exception-routing view: each list element is
the exception that ends one attempt.  `except KeyboardInterrupt: break`
stops the loop at once; the bare `except: pass` discards any other
exception — nothing is appended to the supervisor's log — and the loop
starts the next attempt. -/
def supervise : List Exc → SupRes
  | [] => ⟨0, [], false⟩
  | Exc.keyboardInterrupt :: _ => ⟨1, [], true⟩
  | Exc.other _ :: rest =>
    ⟨(supervise rest).attempts + 1, (supervise rest).log, (supervise rest).interrupted⟩

/-- train.py lines 133-147 with task failure made explicit: the benchmark
tasks run strictly in sequence with no try/except around them; each task's
results are reported (logged and printed) immediately after it runs; a
task whose `run` raises aborts the round, so later tasks neither run nor
report.  Input: the tasks in order, each with whether its `run` returns
without raising.  Output: the names whose results were reported, and
whether the round completed without an exception. -/
def evalTasks : List (String × Bool) → List String × Bool
  | [] => ([], true)
  | (n, ok) :: rest =>
    if ok then ((n :: (evalTasks rest).1), (evalTasks rest).2)
    else ([], false)

/-- Event classifiers. -/
def isCkptSave : Event → Bool
  | Event.ckptSave _ _ _ => true
  | _ => false

def isTask : Event → Bool
  | Event.task _ _ => true
  | _ => false

def isValLoss : Event → Bool
  | Event.valLoss _ _ => true
  | _ => false

def isTrainBatch : Event → Bool
  | Event.trainCompile => true
  | Event.trainStep _ => true
  | _ => false

def isTrainCompile : Event → Bool
  | Event.trainCompile => true
  | _ => false

def isEvalCompile : Event → Bool
  | Event.evalCompile _ => true
  | _ => false

/-- There is a checkpoint write among the events. -/
def hasCkptSave (evs : List Event) : Bool := evs.any isCkptSave

/-- There is an evaluation round among the events (every round runs the
benchmark tasks, so task events witness the round). -/
def hasEvalRound (evs : List Event) : Bool := evs.any isTask

/-- Number of training batches drawn (pre-loop compile call plus one per
loop iteration). -/
def countTrainBatches (evs : List Event) : Nat := evs.countP (isTrainBatch ·)

/-! ## Supporting lemmas -/

theorem evalRound_no_ckptSave (cfg : Config) (s : Nat) :
    (evalRound cfg s).any isCkptSave = false := by
  simp only [evalRound, List.any_append, Bool.or_eq_false_iff]
  constructor
  · simp only [List.any_eq_false]
    intro n hn
    rcases List.mem_map.mp hn with ⟨x, _, rfl⟩
    simp [isCkptSave]
  · rfl

theorem evalRound_task_mem (cfg : Config) (s : Nat) :
    Event.task s "lambada" ∈ evalRound cfg s := by
  simp [evalRound]

/-! ## Claims -/

/-- Claim C5: in the step loop, a checkpoint write occurs during the
iteration at `step` if and only if `step % ckpt_every == 0` and
`step != 0` (train.py line 115). -/
theorem c5_checkpoint_iff (cfg : Config) (st : LoopState)
    (_h : 0 < cfg.ckpt_every) :
    hasCkptSave (stepIter cfg st).2 = true ↔
      st.step % cfg.ckpt_every = 0 ∧ st.step ≠ 0 := by
  by_cases hc : st.step % cfg.ckpt_every = 0 ∧ st.step ≠ 0
  · simp [stepIter, hasCkptSave, hc, isCkptSave]
  · simp only [stepIter, hasCkptSave, if_neg hc, List.nil_append, List.any_cons]
    constructor
    · intro habs
      exfalso
      rcases Bool.or_eq_true _ _ |>.mp habs with h1 | h1
      · exact absurd h1 (by simp [isCkptSave])
      · by_cases hv : st.step % cfg.val_every = 0
        · rw [if_pos hv] at h1
          rw [evalRound_no_ckptSave] at h1
          exact Bool.false_ne_true h1
        · rw [if_neg hv] at h1
          exact Bool.false_ne_true h1
    · intro habs
      exact absurd habs hc

/-- Claim C5 witness: with `ckpt_every = 2`, the iteration at step 2
writes a checkpoint and `2 % 2 = 0 ∧ 2 ≠ 0` holds. -/
theorem c5_checkpoint_iff_witness :
    0 < (2 : Nat) ∧
      (hasCkptSave (stepIter ⟨false, 2, 4, 5, 1, []⟩ ⟨2, 3, []⟩).2 = true ↔
        2 % 2 = 0 ∧ (2 : Nat) ≠ 0) :=
  ⟨by decide, c5_checkpoint_iff ⟨false, 2, 4, 5, 1, []⟩ ⟨2, 3, []⟩ (by decide)⟩

/-- Claim C6: in the step loop, an evaluation round occurs during the
iteration at `step` if and only if `step % val_every == 0`; in particular
it fires at step 0 (train.py line 121). -/
theorem c6_eval_iff (cfg : Config) (st : LoopState)
    (_h : 0 < cfg.val_every) :
    hasEvalRound (stepIter cfg st).2 = true ↔ st.step % cfg.val_every = 0 := by
  by_cases hv : st.step % cfg.val_every = 0
  · simp only [hv, iff_true]
    simp only [stepIter, hasEvalRound, if_pos hv, List.any_cons, List.any_append]
    have htask : (evalRound cfg st.step).any isTask = true :=
      List.any_eq_true.mpr
        ⟨Event.task st.step "lambada", evalRound_task_mem cfg st.step, rfl⟩
    simp [htask]
  · simp only [hv, iff_false]
    simp only [stepIter, hasEvalRound, if_neg hv, List.append_nil, List.any_cons,
      List.any_append]
    by_cases hc : st.step % cfg.ckpt_every = 0 ∧ st.step ≠ 0
    · simp [if_pos hc, isTask]
    · simp [if_neg hc, isTask]

/-- Claim C6 witness: with `val_every = 1000`, the round fires at step 0
on a fresh start (`0 % 1000 = 0`). -/
theorem c6_eval_iff_witness :
    0 < (1000 : Nat) ∧
      (hasEvalRound (stepIter ⟨false, 100, 500, 1000, 1, []⟩ ⟨0, 0, []⟩).2 = true ↔
        0 % 1000 = 0) :=
  ⟨by decide, c6_eval_iff ⟨false, 100, 500, 1000, 1, []⟩ ⟨0, 0, []⟩ (by decide)⟩

/-- Claim C9: in every evaluation round, all configured validation-set
losses are reported before any benchmark task runs, and the benchmark
tasks run in the fixed configured order lambada, winogrande, piqa,
hellaswag, so the round's event sequence is determined by the step
(train.py lines 121-147). -/
theorem c9_round_order (cfg : Config) (st : LoopState)
    (h : st.step % cfg.val_every = 0) :
    ∃ pre, (stepIter cfg st).2 =
        pre ++ (cfg.val_set_names.map (Event.valLoss st.step) ++
          [Event.task st.step "lambada", Event.task st.step "winogrande",
           Event.task st.step "piqa", Event.task st.step "hellaswag"]) ∧
      ∀ e ∈ pre, isTask e = false ∧ isValLoss e = false := by
  refine ⟨Event.trainStep st.step ::
      (if st.step % cfg.ckpt_every = 0 ∧ st.step ≠ 0 then
        [Event.ckptSave st.step (st.cursor + 1)
          (decide (st.step % cfg.keep_every ≠ 0))]
      else []), ?_, ?_⟩
  · simp [stepIter, if_pos h, evalRound, List.append_assoc]
  · intro e he
    rcases List.mem_cons.mp he with rfl | he
    · exact ⟨rfl, rfl⟩
    · by_cases hc : st.step % cfg.ckpt_every = 0 ∧ st.step ≠ 0
      · rw [if_pos hc] at he
        rcases List.mem_singleton.mp he with rfl
        exact ⟨rfl, rfl⟩
      · rw [if_neg hc] at he
      
        exact absurd he (List.not_mem_nil e)

/-- Claim C9 witness: a concrete round at step 0 with one validation set
has the validation loss first, then the four tasks in order. -/
theorem c9_round_order_witness :
    (0 : Nat) % (1 : Nat) = 0 ∧
      (∃ pre, (stepIter ⟨false, 2, 2, 1, 1, ["pile"]⟩ ⟨0, 0, []⟩).2 =
          pre ++ ((["pile"].map (Event.valLoss 0)) ++
            [Event.task 0 "lambada", Event.task 0 "winogrande",
             Event.task 0 "piqa", Event.task 0 "hellaswag"]) ∧
        ∀ e ∈ pre, isTask e = false ∧ isValLoss e = false) :=
  ⟨by decide, c9_round_order ⟨false, 2, 2, 1, 1, ["pile"]⟩ ⟨0, 0, []⟩ (by decide)⟩

/-- Claim C2: a checkpoint written at step S (hence marked transient iff
`S % keep_every != 0`, train.py line 119) is still present after the next
checkpoint write at step S' if and only if `S % keep_every == 0`;
otherwise it is deleted once the write at S' is durable. -/
theorem c2_retention_milestones (cfg : Config) (st : LoopState) (c : Ckpt)
    (hmem : c ∈ st.store)
    (hflag : c.transient = decide (c.step % cfg.keep_every ≠ 0))
    (hstep : c.step ≠ st.step)
    (hdue : st.step % cfg.ckpt_every = 0 ∧ st.step ≠ 0) :
    c ∈ (stepIter cfg st).1.store ↔ c.step % cfg.keep_every = 0 := by
  simp only [stepIter, if_pos hdue, saveStep]
  constructor
  · intro hc
    rcases List.mem_append.mp hc with hc | hc
    · have hfilter := (List.mem_filter.mp hc).2
      rw [hflag] at hfilter
      simpa using hfilter
    · rcases List.mem_singleton.mp hc with rfl
      exact absurd rfl hstep
  · intro hk
    refine List.mem_append.mpr (Or.inl (List.mem_filter.mpr ⟨hmem, ?_⟩))
    rw [hflag]
    simp [hk]

/-- Claim C2 witness (spec scenario `ckpt_every=100, keep_every=500`): the
milestone checkpoint at step 500 is still present after the checkpoint at
step 600 is written. -/
theorem c2_retention_milestones_witness :
    (⟨500, some 502, false⟩ : Ckpt) ∈
      (stepIter ⟨false, 100, 500, 1000, 1, []⟩
        ⟨600, 601, [⟨500, some 502, false⟩]⟩).1.store :=
  (c2_retention_milestones ⟨false, 100, 500, 1000, 1, []⟩
      ⟨600, 601, [⟨500, some 502, false⟩]⟩ ⟨500, some 502, false⟩
      (by decide) (by decide) (by decide) ⟨by decide, by decide⟩).mpr (by decide)

/-- Claim C8: when overwrite is not authorized and a checkpoint already
exists, the attempt's initial save fails and it falls back to loading the
most recent checkpoint; when that checkpoint's aux lacks the dataset
cursor the attempt warns, proceeds with a fresh cursor, and still starts
training (train.py lines 68-84, 100-107). -/
theorem c8_fallback_missing_cursor (cfg : Config) (store : List Ckpt) (c : Ckpt)
    (first : Bool) (iters : Nat)
    (hno : (cfg.new && first) = false)
    (hlast : store.getLast? = some c)
    (hcur : c.cursor = none) :
    ∃ out, runAttempt cfg store first iters = some out ∧
      out.startStep = c.step ∧ out.startCursor = 0 ∧ out.warned = true ∧
      out.storeAfterInit = store ∧
      Event.warnNoCursor ∈ out.events ∧ Event.trainCompile ∈ out.events := by
  have hne : store.isEmpty = false := by
    cases store with
    | nil => simp at hlast
    | cons a l => rfl
  have hinit : initStore store (cfg.new && first) =
      some ⟨store, c.step, none, true⟩ := by
    rw [hno]
    simp [initStore, saveInit, loadLatest, hne, hlast, hcur]
  have hrun : runAttempt cfg store first iters =
      some ⟨cfg.new && first, store, c.step, 0, true,
        (runLoop cfg iters ⟨c.step, 1, store⟩).1.store,
        (runLoop cfg iters ⟨c.step, 1, store⟩).1.step,
        (runLoop cfg iters ⟨c.step, 1, store⟩).1.cursor,
        [Event.warnNoCursor] ++
          (Event.trainCompile :: cfg.val_set_names.map Event.evalCompile) ++
          (runLoop cfg iters ⟨c.step, 1, store⟩).2⟩ := by
    unfold runAttempt
    rw [hinit]
    rfl
  refine ⟨_, hrun, rfl, rfl, rfl, rfl, ?_, ?_⟩
  · simp
  · simp

/-- Claim C8 witness: after a crash before the first in-loop checkpoint,
the store holds only the aux-less step-0 checkpoint; the restarted attempt
falls back to it, warns, and still starts training. -/
theorem c8_fallback_missing_cursor_witness :
    ((⟨true, 2, 2, 5, 1, []⟩ : Config).new && false) = false ∧
      (∃ out, runAttempt ⟨true, 2, 2, 5, 1, []⟩ [⟨0, none, false⟩] false 1 = some out ∧
        out.startStep = (⟨0, none, false⟩ : Ckpt).step ∧ out.startCursor = 0 ∧
        out.warned = true ∧ out.storeAfterInit = [⟨0, none, false⟩] ∧
        Event.warnNoCursor ∈ out.events ∧ Event.trainCompile ∈ out.events) :=
  ⟨by decide, c8_fallback_missing_cursor ⟨true, 2, 2, 5, 1, []⟩ [⟨0, none, false⟩]
      ⟨0, none, false⟩ false 1 (by decide) (by decide) (by decide)⟩

/-- Every event of an evaluation round is a validation loss or a task. -/
theorem evalRound_shape (cfg : Config) (s : Nat) (e : Event)
    (he : e ∈ evalRound cfg s) :
    (∃ n, e = Event.valLoss s n) ∨ ∃ n, e = Event.task s n := by
  rcases List.mem_append.mp he with h | h
  · rcases List.mem_map.mp h with ⟨x, _, rfl⟩
    exact Or.inl ⟨x, rfl⟩
  · simp only [List.mem_cons, List.not_mem_nil, or_false] at h
    rcases h with rfl | rfl | rfl | rfl
    · exact Or.inr ⟨"lambada", rfl⟩
    · exact Or.inr ⟨"winogrande", rfl⟩
    · exact Or.inr ⟨"piqa", rfl⟩
    · exact Or.inr ⟨"hellaswag", rfl⟩

/-- An evaluation round contributes nothing to a count of events that is
false on validation losses and tasks. -/
theorem countP_evalRound_zero (cfg : Config) (s : Nat) (p : Event → Bool)
    (hval : ∀ n, p (Event.valLoss s n) = false)
    (htask : ∀ n, p (Event.task s n) = false) :
    (evalRound cfg s).countP p = 0 := by
  refine List.countP_eq_zero.mpr ?_
  intro e he
  rcases evalRound_shape cfg s e he with ⟨n, rfl⟩ | ⟨n, rfl⟩
  · simp [hval]
  · simp [htask]

@[simp] theorem isTrainBatch_trainStep (s : Nat) :
    isTrainBatch (Event.trainStep s) = true := rfl

@[simp] theorem isTrainBatch_ckptSave (s c : Nat) (d : Bool) :
    isTrainBatch (Event.ckptSave s c d) = false := rfl

@[simp] theorem isTrainBatch_trainCompile :
    isTrainBatch Event.trainCompile = true := rfl

@[simp] theorem isTrainBatch_warn :
    isTrainBatch Event.warnNoCursor = false := rfl

@[simp] theorem isTrainBatch_evalCompile (n : String) :
    isTrainBatch (Event.evalCompile n) = false := rfl

@[simp] theorem isTrainCompile_trainStep (s : Nat) :
    isTrainCompile (Event.trainStep s) = false := rfl

@[simp] theorem isTrainCompile_ckptSave (s c : Nat) (d : Bool) :
    isTrainCompile (Event.ckptSave s c d) = false := rfl

@[simp] theorem isTrainCompile_trainCompile :
    isTrainCompile Event.trainCompile = true := rfl

@[simp] theorem isTrainCompile_warn :
    isTrainCompile Event.warnNoCursor = false := rfl

@[simp] theorem isTrainCompile_evalCompile (n : String) :
    isTrainCompile (Event.evalCompile n) = false := rfl

@[simp] theorem isEvalCompile_trainStep (s : Nat) :
    isEvalCompile (Event.trainStep s) = false := rfl

@[simp] theorem isEvalCompile_ckptSave (s c : Nat) (d : Bool) :
    isEvalCompile (Event.ckptSave s c d) = false := rfl

@[simp] theorem isEvalCompile_trainCompile :
    isEvalCompile Event.trainCompile = false := rfl

@[simp] theorem isEvalCompile_warn :
    isEvalCompile Event.warnNoCursor = false := rfl

@[simp] theorem isEvalCompile_evalCompile (n : String) :
    isEvalCompile (Event.evalCompile n) = true := rfl

/-- One loop iteration draws exactly one training batch and makes no
compile calls. -/
theorem stepIter_counts (cfg : Config) (st : LoopState) :
    countTrainBatches (stepIter cfg st).2 = 1 ∧
    (stepIter cfg st).2.countP (isTrainCompile ·) = 0 ∧
    (stepIter cfg st).2.countP (isEvalCompile ·) = 0 := by
  have hc1 : (evalRound cfg st.step).countP (isTrainBatch ·) = 0 :=
    countP_evalRound_zero _ _ _ (fun _ => rfl) (fun _ => rfl)
  have hc2 : (evalRound cfg st.step).countP (isTrainCompile ·) = 0 :=
    countP_evalRound_zero _ _ _ (fun _ => rfl) (fun _ => rfl)
  have hc3 : (evalRound cfg st.step).countP (isEvalCompile ·) = 0 :=
    countP_evalRound_zero _ _ _ (fun _ => rfl) (fun _ => rfl)
  refine ⟨?_, ?_, ?_⟩ <;>
    · simp only [stepIter, countTrainBatches, List.countP_cons, List.countP_append]
      by_cases hcp : st.step % cfg.ckpt_every = 0 ∧ st.step ≠ 0 <;>
        by_cases hv : st.step % cfg.val_every = 0 <;>
          simp [hcp, hv, hc1, hc2, hc3, List.countP_cons]

/-- Unfolding equation for `runLoop` at a successor fuel value. -/
theorem runLoop_succ (cfg : Config) (n : Nat) (st : LoopState) :
    runLoop cfg (n + 1) st =
      ((runLoop cfg n (stepIter cfg st).1).1,
        (stepIter cfg st).2 ++ (runLoop cfg n (stepIter cfg st).1).2) := rfl

/-- The step counter advances by exactly one per iteration. -/
theorem runLoop_step_count (cfg : Config) (n : Nat) (st : LoopState) :
    (runLoop cfg n st).1.step = st.step + n := by
  induction n generalizing st with
  | zero => rfl
  | succ n ih =>
    rw [runLoop_succ]
    show (runLoop cfg n (stepIter cfg st).1).1.step = st.step + (n + 1)
    rw [ih]
    show st.step + 1 + n = st.step + (n + 1)
    omega

/-- The cursor advances by exactly one per iteration. -/
theorem runLoop_cursor_count (cfg : Config) (n : Nat) (st : LoopState) :
    (runLoop cfg n st).1.cursor = st.cursor + n := by
  induction n generalizing st with
  | zero => rfl
  | succ n ih =>
    rw [runLoop_succ]
    show (runLoop cfg n (stepIter cfg st).1).1.cursor = st.cursor + (n + 1)
    rw [ih]
    show st.cursor + 1 + n = st.cursor + (n + 1)
    omega

/-- The loop draws one training batch per iteration and never makes a
compile call. -/
theorem runLoop_counts (cfg : Config) (n : Nat) (st : LoopState) :
    countTrainBatches (runLoop cfg n st).2 = n ∧
    (runLoop cfg n st).2.countP (isTrainCompile ·) = 0 ∧
    (runLoop cfg n st).2.countP (isEvalCompile ·) = 0 := by
  induction n generalizing st with
  | zero => exact ⟨rfl, rfl, rfl⟩
  | succ n ih =>
    rw [runLoop_succ]
    rcases ih (stepIter cfg st).1 with ⟨i1, i2, i3⟩
    rcases stepIter_counts cfg st with ⟨s1, s2, s3⟩
    simp only [countTrainBatches, List.countP_append] at *
    refine ⟨?_, ?_, ?_⟩
    · rw [s1, i1]
      omega
    · rw [s2, i2]
    · rw [s3, i3]

/-- The pre-loop eval-compile calls: one per configured validation set,
drawing no training batch. -/
theorem evalCompile_map_counts (l : List String) :
    countTrainBatches (l.map Event.evalCompile) = 0 ∧
    (l.map Event.evalCompile).countP (isTrainCompile ·) = 0 ∧
    (l.map Event.evalCompile).countP (isEvalCompile ·) = l.length := by
  induction l with
  | nil => exact ⟨rfl, rfl, rfl⟩
  | cons a l ih =>
    rcases ih with ⟨i1, i2, i3⟩
    simp only [countTrainBatches, List.map_cons, List.countP_cons] at *
    refine ⟨?_, ?_, ?_⟩ <;>
      simp [i1, i2, i3, isTrainBatch, isTrainCompile, isEvalCompile]

/-- A possible warning event contributes nothing to the batch counts. -/
theorem warn_if_count (b : Bool) (p : Event → Bool)
    (hp : p Event.warnNoCursor = false) :
    (if b = true then [Event.warnNoCursor] else []).countP p = 0 := by
  by_cases hb : b = true <;> simp [hb, hp]

/-- Claim C10: on every attempt, one extra pre-loop training call draws a
batch and updates the model without being counted as a step, and one eval
compile call is made per configured validation set; the number of training
batches consumed by the attempt exceeds the number of counted steps by
exactly one (train.py lines 100-107, 111-113, 149). -/
theorem c10_extra_compile_batch (cfg : Config) (store : List Ckpt) (first : Bool)
    (iters : Nat) (out : AttemptOut)
    (h : runAttempt cfg store first iters = some out) :
    countTrainBatches out.events = (out.endStep - out.startStep) + 1 ∧
    out.endStep = out.startStep + iters ∧
    out.events.countP (isTrainCompile ·) = 1 ∧
    out.events.countP (isEvalCompile ·) = cfg.val_set_names.length := by
  cases hinit : initStore store (cfg.new && first) with
  | none =>
    rw [runAttempt, hinit] at h
    simp at h
  | some init =>
    have hrun : runAttempt cfg store first iters =
        some ⟨cfg.new && first, init.store, init.step, init.restore.getD 0, init.warned,
          (runLoop cfg iters ⟨init.step, init.restore.getD 0 + 1, init.store⟩).1.store,
          (runLoop cfg iters ⟨init.step, init.restore.getD 0 + 1, init.store⟩).1.step,
          (runLoop cfg iters ⟨init.step, init.restore.getD 0 + 1, init.store⟩).1.cursor,
          (if init.warned = true then [Event.warnNoCursor] else []) ++
            (Event.trainCompile :: cfg.val_set_names.map Event.evalCompile) ++
            (runLoop cfg iters ⟨init.step, init.restore.getD 0 + 1, init.store⟩).2⟩ := by
      unfold runAttempt
      rw [hinit]
    rw [hrun] at h
    obtain rfl := (Option.some.inj h).symm
    rcases runLoop_counts cfg iters ⟨init.step, init.restore.getD 0 + 1, init.store⟩
      with ⟨l1, l2, l3⟩
    rcases evalCompile_map_counts cfg.val_set_names with ⟨m1, m2, m3⟩
    have hstep := runLoop_step_count cfg iters ⟨init.step, init.restore.getD 0 + 1, init.store⟩
    refine ⟨?_, ?_, ?_, ?_⟩
    · show countTrainBatches _ = _
      simp only [countTrainBatches, List.countP_append, List.countP_cons] at *
      rw [warn_if_count init.warned _ rfl, l1, m1, hstep]
      simp [isTrainBatch]
      omega
    · exact hstep
    · show List.countP _ _ = 1
      simp only [List.countP_append, List.countP_cons] at *
      rw [warn_if_count init.warned _ rfl, l2, m2]
      simp [isTrainCompile]
    · show List.countP _ _ = _
      simp only [List.countP_append, List.countP_cons] at *
      rw [warn_if_count init.warned _ rfl, l3, m3]
      simp [isEvalCompile]

/-- Claim C10 witness: a fresh attempt with one validation set, observed
for 3 steps: 4 training batches drawn, 1 train compile call, 1 eval
compile call. -/
theorem c10_extra_compile_batch_witness :
    ∃ out, runAttempt ⟨true, 2, 2, 5, 1, ["pile"]⟩ [] true 3 = some out ∧
      (countTrainBatches out.events = (out.endStep - out.startStep) + 1 ∧
        out.endStep = out.startStep + 3 ∧
        out.events.countP (isTrainCompile ·) = 1 ∧
        out.events.countP (isEvalCompile ·) = ["pile"].length) :=
  ⟨_, rfl, c10_extra_compile_batch ⟨true, 2, 2, 5, 1, ["pile"]⟩ [] true 3 _ rfl⟩

/-- Initialization with overwrite disabled never drops a stored
checkpoint: either the store was empty (nothing to drop) or the init save
raises and the fallback load leaves the store untouched. -/
theorem initStore_no_overwrite_mono (store : List Ckpt) (init : InitOut)
    (h : initStore store false = some init) :
    ∀ c ∈ store, c ∈ init.store := by
  intro c hc
  cases store with
  | nil => exact absurd hc (List.not_mem_nil c)
  | cons a l =>
    have hs : saveInit (a :: l) false = none := rfl
    unfold initStore at h
    rw [hs] at h
    rcases hl : loadLatest (a :: l) with _ | ⟨pstep, paux⟩
    · rw [hl] at h
      exact Option.noConfusion h
    · rw [hl] at h
      obtain rfl := (Option.some.inj h).symm
      exact hc

/-- The attempt records the overwrite flag it used and the store as it
stood right after initialization. -/
theorem runAttempt_storeAfterInit (cfg : Config) (store : List Ckpt)
    (first : Bool) (iters : Nat) (out : AttemptOut)
    (h : runAttempt cfg store first iters = some out) :
    ∃ init, initStore store (cfg.new && first) = some init ∧
      out.storeAfterInit = init.store ∧ out.overwriteUsed = (cfg.new && first) := by
  cases hinit : initStore store (cfg.new && first) with
  | none =>
    unfold runAttempt at h
    rw [hinit] at h
    exact Option.noConfusion h
  | some init =>
    unfold runAttempt at h
    rw [hinit] at h
    obtain rfl := (Option.some.inj h).symm
    exact ⟨init, rfl, rfl, rfl⟩

/-- An attempt whose overwrite flag is off preserves every checkpoint
through initialization. -/
theorem runAttempt_preserves (cfg : Config) (store : List Ckpt)
    (first : Bool) (iters : Nat) (out : AttemptOut)
    (h : runAttempt cfg store first iters = some out)
    (hflag : (cfg.new && first) = false) :
    ∀ c ∈ store, c ∈ out.storeAfterInit := by
  rcases runAttempt_storeAfterInit cfg store first iters out h with ⟨init, hi, hs, _⟩
  rw [hflag] at hi
  rw [hs]
  exact initStore_no_overwrite_mono store init hi

/-- If initialization dropped an existing checkpoint, the overwrite flag
must have been on. -/
theorem runAttempt_destructive (cfg : Config) (store : List Ckpt)
    (first : Bool) (iters : Nat) (out : AttemptOut)
    (h : runAttempt cfg store first iters = some out)
    (hd : ∃ c ∈ store, c ∉ out.storeAfterInit) :
    (cfg.new && first) = true := by
  cases hb : (cfg.new && first) with
  | true => rfl
  | false =>
    rcases hd with ⟨c, hc, hnc⟩
    exact absurd (runAttempt_preserves cfg store first iters out h hb c hc) hnc

/-- Every attempt started by the supervisor's recursion after a failure
runs with first = False, hence with overwrite disabled and without
touching existing checkpoints at init. -/
theorem runSystemAux_false_traces (cfg : Config) (plans : List Nat) :
    ∀ store : List Ckpt, ∀ tr ∈ (runSystemAux cfg plans store false).2,
      tr.firstUsed = false ∧ tr.out.overwriteUsed = false ∧
        ∀ c ∈ tr.storeBefore, c ∈ tr.out.storeAfterInit := by
  induction plans with
  | nil =>
    intro store tr htr
    exact absurd htr (List.not_mem_nil tr)
  | cons iters rest ih =>
    intro store tr htr
    cases hra : runAttempt cfg store false iters with
    | none =>
      unfold runSystemAux at htr
      rw [hra] at htr
      exact absurd htr (List.not_mem_nil tr)
    | some out =>
      unfold runSystemAux at htr
      rw [hra] at htr
      rcases List.mem_cons.mp htr with rfl | htr
      · refine ⟨rfl, ?_, ?_⟩
        · rcases runAttempt_storeAfterInit cfg store false iters out hra with ⟨_, _, _, ho⟩
          rw [ho]
          exact Bool.and_false cfg.new
        · exact runAttempt_preserves cfg store false iters out hra (Bool.and_false cfg.new)
      · exact ih out.store tr htr

/-- Claim C1: destructive initialization (deleting existing checkpoint
data at the checkpoint address) happens only when the operator's `--new`
flag is set and the attempt is the first of the process; every restart
after a failure runs with first = False, issues the initial save with
overwrite disabled, and never deletes existing checkpoint data
(train.py lines 42, 69, 152-161). -/
theorem c1_destructive_init_only_first (cfg : Config) (plans : List Nat)
    (store0 : List Ckpt) (i : Nat) (tr : SysTrace)
    (htr : (runSystem cfg plans store0).2.get? i = some tr) :
    (1 ≤ i → tr.firstUsed = false ∧ tr.out.overwriteUsed = false ∧
      ∀ c ∈ tr.storeBefore, c ∈ tr.out.storeAfterInit) ∧
    ((∃ c ∈ tr.storeBefore, c ∉ tr.out.storeAfterInit) →
      cfg.new = true ∧ tr.firstUsed = true ∧ i = 0) := by
  cases plans with
  | nil => exact absurd htr (by simp [runSystem, runSystemAux])
  | cons iters rest =>
    cases hra : runAttempt cfg store0 true iters with
    | none =>
      unfold runSystem runSystemAux at htr
      rw [hra] at htr
      exact absurd htr (by simp)
    | some out =>
      unfold runSystem runSystemAux at htr
      rw [hra] at htr
      cases i with
      | zero =>
        have htr0 : tr = ⟨true, store0, out⟩ := Option.some.inj htr.symm
        constructor
        · intro habs
          exact absurd habs (by omega)
        · intro hd
          subst htr0
          have hnew := runAttempt_destructive cfg store0 true iters out hra hd
          rw [Bool.and_true] at hnew
          exact ⟨hnew, rfl, rfl⟩
      | succ i =>
        have htail : tr ∈ (runSystemAux cfg rest out.store false).2 :=
          List.get?_mem htr
        rcases runSystemAux_false_traces cfg rest out.store tr htail with ⟨h1, h2, h3⟩
        refine ⟨fun _ => ⟨h1, h2, h3⟩, ?_⟩
        intro hd
        rcases hd with ⟨c, hc, hnc⟩
        exact absurd (h3 c hc) hnc

/-- Claim C1 witness: with `--new` set, the second attempt (after a crash)
runs with first = False, overwrite disabled, and every checkpoint present
before its init is still present after. -/
theorem c1_destructive_init_only_first_witness :
    1 ≤ 1 ∧
      (∃ tr, (runSystem ⟨true, 2, 2, 1000, 1, []⟩ [1, 1] []).2.get? 1 = some tr ∧
        (tr.firstUsed = false ∧ tr.out.overwriteUsed = false ∧
          ∀ c ∈ tr.storeBefore, c ∈ tr.out.storeAfterInit)) :=
  ⟨le_refl 1,
    ⟨_, rfl,
      (c1_destructive_init_only_first ⟨true, 2, 2, 1000, 1, []⟩ [1, 1] [] 1 _ rfl).1
        (le_refl 1)⟩⟩

/-- The supervisor's own log is always empty: the bare `except: pass` at
train.py lines 159-160 writes nothing. -/
theorem supervise_log_nil : ∀ outs : List Exc, (supervise outs).log = []
  | [] => rfl
  | Exc.keyboardInterrupt :: _ => rfl
  | Exc.other _ :: rest => supervise_log_nil rest

/-- Claim C3 counterexample: an attempt dies with a non-interrupt
exception; the supervisor does restart (a second attempt runs), but its
log is empty — the exception was silently discarded, not logged, refuting
the "logged, never silently dropped" part of the claim
(train.py lines 159-160: bare `except: pass`). -/
theorem c3_unlogged_counterexample :
    (supervise [Exc.other "boom", Exc.keyboardInterrupt]).attempts = 2 ∧
    (supervise [Exc.other "boom", Exc.keyboardInterrupt]).log = [] :=
  ⟨rfl, rfl⟩

/-- Claim C3 amended: every exception other than the keyboard interrupt is
caught and followed by a restart of a new attempt, but it is silently
discarded (the supervisor logs nothing); the keyboard interrupt stops the
supervisor immediately — exactly one attempt is accounted for and nothing
runs after it. -/
theorem c3_restart_without_logging (m : String) (outs : List Exc) :
    (supervise (Exc.other m :: outs)).attempts = (supervise outs).attempts + 1 ∧
    (supervise (Exc.other m :: outs)).log = [] ∧
    (supervise (Exc.other m :: outs)).interrupted = (supervise outs).interrupted ∧
    supervise (Exc.keyboardInterrupt :: outs) = ⟨1, [], true⟩ :=
  ⟨rfl, supervise_log_nil _, rfl, rfl⟩

/-- Claim C4 counterexample: with the four benchmark tasks configured in
their fixed order and winogrande's `run` raising, piqa's results are not
reported and the round does not complete — one failing task does abort the
remaining tasks (train.py lines 133-147 have no per-task try/except). -/
theorem c4_task_failure_aborts_round :
    "piqa" ∉ (evalTasks [("lambada", true), ("winogrande", false),
      ("piqa", true), ("hellaswag", true)]).1 ∧
    (evalTasks [("lambada", true), ("winogrande", false),
      ("piqa", true), ("hellaswag", true)]).2 = false := by
  decide

/-- Claim C4 amended: when a benchmark task raises, the tasks before it in
the fixed order have already run and reported their results, but the
failing task and every later task report nothing — the exception aborts
the remainder of the evaluation round. -/
theorem c4_failure_truncates_round (pre post : List (String × Bool)) (f : String)
    (hpre : ∀ t ∈ pre, t.2 = true) :
    (evalTasks (pre ++ (f, false) :: post)).1 = pre.map Prod.fst ∧
    (evalTasks (pre ++ (f, false) :: post)).2 = false := by
  induction pre with
  | nil => exact ⟨rfl, rfl⟩
  | cons a l ih =>
    rcases a with ⟨n, ok⟩
    have hok : ok = true := hpre (n, ok) (List.mem_cons_self _ _)
    subst hok
    have hl : ∀ t ∈ l, t.2 = true := fun t ht => hpre t (List.mem_cons_of_mem _ ht)
    rcases ih hl with ⟨ih1, ih2⟩
    constructor
    · show (evalTasks ((n, true) :: (l ++ (f, false) :: post))).1 = n :: l.map Prod.fst
      simp [evalTasks, ih1]
    · show (evalTasks ((n, true) :: (l ++ (f, false) :: post))).2 = false
      simp [evalTasks, ih2]

/-- Claim C4 amended witness: lambada succeeds and reports; winogrande
fails; piqa and hellaswag report nothing. -/
theorem c4_failure_truncates_round_witness :
    (∀ t ∈ [("lambada", true)], (t : String × Bool).2 = true) ∧
      ((evalTasks ([("lambada", true)] ++ ("winogrande", false) ::
          [("piqa", true), ("hellaswag", true)])).1 =
            [("lambada", true)].map Prod.fst ∧
        (evalTasks ([("lambada", true)] ++ ("winogrande", false) ::
          [("piqa", true), ("hellaswag", true)])).2 = false) :=
  ⟨by decide, c4_failure_truncates_round [("lambada", true)]
      [("piqa", true), ("hellaswag", true)] "winogrande" (by decide)⟩

/-- Claim C7 counterexample: with `--new`, `ckpt_every = keep_every = 2`,
a first attempt that crashes after 5 steps and a resumed attempt observed
for 1 step, the store ends up holding two checkpoints both recorded at
step 4 but with different cursors (6 from the fresh attempt, 8 from the
resumed one): the recorded cursor is not determined by the recorded step,
because the pre-loop compile call consumes a batch in every attempt and
the resumed attempt re-executes the loaded step. -/
theorem c7_cursor_skew_counterexample :
    (⟨4, some 6, false⟩ : Ckpt) ∈
      (runSystem ⟨true, 2, 2, 1000, 1, []⟩ [5, 1] []).1 ∧
    (⟨4, some 8, false⟩ : Ckpt) ∈
      (runSystem ⟨true, 2, 2, 1000, 1, []⟩ [5, 1] []).1 := by
  decide

/-- Claim C7 amended: every checkpoint written by the step loop carries
the cursor snapshot taken at the moment of writing (right after that
iteration's training batch); in a fresh attempt, whose state satisfies
`cursor = step + 1` when the loop starts (the pre-loop compile call
consumed one batch), the recorded cursor is exactly `step + 2` — but this
correspondence is per-attempt, not a function of the step alone, since
resumption shifts it (see the counterexample). -/
theorem c7_fresh_cursor_law (cfg : Config) (n : Nat) : ∀ st : LoopState,
    st.cursor = st.step + 1 → ∀ S c : Nat, ∀ d : Bool,
    Event.ckptSave S c d ∈ (runLoop cfg n st).2 → c = S + 2 := by
  induction n with
  | zero =>
    intro st _ S c d hev
    exact absurd hev (List.not_mem_nil _)
  | succ n ih =>
    intro st hinv S c d hev
    rw [runLoop_succ] at hev
    rcases List.mem_append.mp hev with h | h
    · rcases List.mem_cons.mp h with h | h
      · exact Event.noConfusion h
      · rcases List.mem_append.mp h with h | h
        · by_cases hcp : st.step % cfg.ckpt_every = 0 ∧ st.step ≠ 0
          · rw [if_pos hcp] at h
            have heq := List.mem_singleton.mp h
            obtain ⟨h1, h2, h3⟩ := Event.ckptSave.inj heq
            subst h1
            subst h2
            omega
          · rw [if_neg hcp] at h
            exact absurd h (List.not_mem_nil _)
        · by_cases hv : st.step % cfg.val_every = 0
          · rw [if_pos hv] at h
            rcases evalRound_shape cfg st.step _ h with ⟨nn, he⟩ | ⟨nn, he⟩ <;>
              exact Event.noConfusion he
          · rw [if_neg hv] at h
            exact absurd h (List.not_mem_nil _)
    · refine ih (stepIter cfg st).1 ?_ S c d h
      show st.cursor + 1 = st.step + 1 + 1
      omega

/-- Claim C7 amended witness: a fresh attempt's loop state starts with
`cursor = step + 1`; the checkpoint written at step 2 records cursor 4 =
2 + 2. -/
theorem c7_fresh_cursor_law_witness :
    (⟨0, 1, ([] : List Ckpt)⟩ : LoopState).cursor = 0 + 1 ∧
      Event.ckptSave 2 4 false ∈
        (runLoop ⟨false, 2, 2, 1000, 1, []⟩ 3 ⟨0, 1, []⟩).2 ∧
      (4 : Nat) = 2 + 2 :=
  ⟨rfl, by decide,
    c7_fresh_cursor_law ⟨false, 2, 2, 1000, 1, []⟩ 3 ⟨0, 1, []⟩ rfl 2 4 false
      (by decide)⟩
